import Mathlib

/-!
Shallow embedding of the neosense metadata-extraction orchestration
(`app/workflow.py`, `app/activities.py`, `main.py`).

Python strings stay Lean `String`; Python dictionaries become association
lists `Obj := List (String × Val)` over a JSON-like value type `Val`.
An activity outcome after Temporal finished its retry handling is an
`Except String A`: `Except.error e` models an activity that failed after
exhausting its retries.  Python float arithmetic is modelled by exact
rational arithmetic.
-/

/-- Values of the JSON-like dictionaries the workflow manipulates. -/
inductive Val : Type where
  | str (s : String)
  | int (n : Int)
  | rat (q : ℚ)
  | bool (b : Bool)
  | list (xs : List Val)
  | dict (kvs : List (String × Val))
  | null

/-- A Python dictionary: association list with first-match lookup. -/
abbrev Obj : Type := List (String × Val)

/-- Python `d[key]` / `key in d`: first matching key wins. -/
def objGet : Obj → String → Option Val
  | [], _ => Option.none
  | (k, v) :: rest, key => if k = key then some v else objGet rest key

/-- Python `d.get(key, default)`. -/
def objGetD (o : Obj) (key : String) (d : Val) : Val := (objGet o key).getD d

/-- Lift a list of strings to a JSON value. -/
def strListVal (l : List String) : Val := Val.list (l.map Val.str)

/-- Matching of a pattern list against the front of a string. -/
def leadsWith : List Char → List Char → Bool
  | [], _ => true
  | _ :: _, [] => false
  | a :: as, b :: bs => a == b && leadsWith as bs

/-- Locate the first occurrence of `sep`: returns the text before it and
the text after it. -/
def firstSplit (sep : List Char) : List Char → Option (List Char × List Char)
  | [] => if sep.isEmpty then some ([], []) else Option.none
  | c :: rest =>
      if leadsWith sep (c :: rest) then some ([], (c :: rest).drop sep.length)
      else
        match firstSplit sep rest with
        | some (before, after) => some (c :: before, after)
        | Option.none => Option.none

/-- Python substring test `sep in s`. -/
def pyIn (sep s : String) : Bool := (firstSplit sep.data s.data).isSome

/-- Fuelled worker for `pySplit`. -/
def pySplitList (fuel : Nat) (sep : List Char) (s : List Char) : List (List Char) :=
  match fuel with
  | 0 => [s]
  | Nat.succ f =>
    match firstSplit sep s with
    | Option.none => [s]
    | some (before, after) => before :: pySplitList f sep after

/-- Python `s.split(sep)` for a non-empty separator. -/
def pySplit (s sep : String) : List String :=
  (pySplitList (s.data.length + 1) sep.data s.data).map String.mk

/-- Python `s.replace(":", "")`. -/
def stripColons (s : String) : String := String.mk (s.data.filter (fun c => c != ':'))

/-! ## `Neo4jWorkflow._extract_relationship_patterns` (workflow.py lines 174-193) -/

/-- Python `rel_type in patterns_by_type` on the grouping dictionary. -/
def hasKey (acc : List (String × List String)) (k : String) : Bool :=
  acc.any (fun kv => kv.1 == k)

/-- Python `patterns_by_type[rel_type].append(pattern)` preceded by
`patterns_by_type[rel_type] = []` when the key is new. -/
def groupAdd (acc : List (String × List String)) (k : String) (p : String) :
    List (String × List String) :=
  if hasKey acc k then acc.map (fun kv => if kv.1 == k then (kv.1, kv.2 ++ [p]) else kv)
  else acc ++ [(k, [p])]

/-- Relationship-type key computed by the source:
`pattern.split("-[")[1].split("]->(")[0].replace(":", "")`. -/
def relTypeOf (pattern : String) : String :=
  stripColons ((pySplit ((pySplit pattern "-[").getD 1 "") "]->(").getD 0 "")

/-- Guard of the source loop: `"-[" in pattern and "]->" in pattern`. -/
def patternGuard (pattern : String) : Bool := pyIn "-[" pattern && pyIn "]->" pattern

/-- The `patterns_by_type` dictionary after the source loop. -/
def patternsByType (lineage : List String) : List (String × List String) :=
  lineage.foldl (fun acc p => if patternGuard p then groupAdd acc (relTypeOf p) p else acc) []

/-- `_extract_relationship_patterns`: early return on an empty list, else the
four-key summary built around `patterns_by_type`. -/
def extractRelationshipPatterns (lineage : List String) : Obj :=
  if lineage.isEmpty then
    [("patterns", Val.list []), ("summary", Val.str "No relationship patterns found")]
  else
    [("patterns", strListVal lineage),
     ("patterns_by_relationship_type",
        Val.dict ((patternsByType lineage).map (fun kv => (kv.1, strListVal kv.2)))),
     ("total_patterns", Val.int lineage.length),
     ("unique_relationship_types", Val.int (patternsByType lineage).length)]

/-! ## `Neo4jWorkflow._analyze_data_flow` (workflow.py lines 195-207) -/

/-- Python f-string `f"{label1} -> {rel} -> {label2}"`. -/
def flowStr (label1 rel label2 : String) : String :=
  label1 ++ " -> " ++ rel ++ " -> " ++ label2

/-- The list comprehension over `node_labels × node_labels × relationship_types`
with the `label1 != label2` guard, sliced to the first 10 entries. -/
def potentialFlows (node_labels relationship_types : List String) : List String :=
  (node_labels.flatMap (fun label1 =>
    node_labels.flatMap (fun label2 =>
      relationship_types.filterMap (fun rel =>
        if label1 ≠ label2 then some (flowStr label1 rel label2) else Option.none)))).take 10

/-- `_analyze_data_flow`. -/
def analyzeDataFlow (node_labels relationship_types : List String) : Obj :=
  [("entities", strListVal node_labels),
   ("connections", strListVal relationship_types),
   ("potential_flows", strListVal (potentialFlows node_labels relationship_types))]

/-! ## Rounding and the quality summaries (workflow.py lines 209-260) -/

/-- Round to the nearest integer, ties to even (Python `round`). -/
def roundHalfEven (q : ℚ) : ℤ :=
  if q - ⌊q⌋ < 1 / 2 then ⌊q⌋
  else if (1 : ℚ) / 2 < q - ⌊q⌋ then ⌊q⌋ + 1
  else if ⌊q⌋ % 2 = 0 then ⌊q⌋ else ⌊q⌋ + 1

/-- Python `round(x, 2)`. -/
def round2 (q : ℚ) : ℚ := (roundHalfEven (q * 100) : ℚ) / 100

/-- Classifier mirroring
`isinstance(metrics, dict) and "total_records" in metrics and "null_count" in metrics`
together with the integer reads of those two entries. -/
def metricOf (v : Val) : Option (Int × Int) :=
  match v with
  | Val.dict m =>
    match objGet m "total_records", objGet m "null_count" with
    | some (Val.int t), some (Val.int n) => some (t, n)
    | _, _ => Option.none
  | _ => Option.none

/-- Per-field percentage
`((field_total - field_nulls) / field_total * 100) if field_total > 0 else 0`;
the same formula computes the overall percentage from the two running sums. -/
def fieldPct (t n : Int) : ℚ := if 0 < t then ((t : ℚ) - (n : ℚ)) / (t : ℚ) * 100 else 0

/-- One iteration of the `_calculate_completeness_summary` loop: running
total, running null count, and the `field_completeness` dictionary. -/
def completenessStep (acc : Int × Int × Obj) (kv : String × Val) : Int × Int × Obj :=
  match metricOf kv.2 with
  | some (t, n) =>
    (acc.1 + t, acc.2.1 + n,
     acc.2.2 ++ [(kv.1, Val.dict
        [("completeness_percentage", Val.rat (round2 (fieldPct t n))),
         ("null_count", Val.int n),
         ("total_count", Val.int t)])])
  | Option.none => acc

/-- `_calculate_completeness_summary`. -/
def calcCompletenessSummary (qm : Obj) : Obj :=
  if qm.isEmpty then [("overall_completeness", Val.str "No data available")]
  else
    let r := qm.foldl completenessStep (0, 0, [])
    [("overall_completeness_percentage", Val.rat (round2 (fieldPct r.1 r.2.1))),
     ("field_level_completeness", Val.dict r.2.2),
     ("total_fields_analyzed", Val.int r.2.2.length)]

/-- Classifier for the uniqueness loop:
`isinstance(metrics, dict) and "unique_values" in metrics and "total_records" in metrics`. -/
def uniqMetricOf (v : Val) : Option (Int × Int) :=
  match v with
  | Val.dict m =>
    match objGet m "unique_values", objGet m "total_records" with
    | some (Val.int u), some (Val.int t) => some (u, t)
    | _, _ => Option.none
  | _ => Option.none

/-- One iteration of the `_calculate_uniqueness_summary` loop. -/
def uniquenessStep (acc : Obj) (kv : String × Val) : Obj :=
  match uniqMetricOf kv.2 with
  | some (u, t) =>
    acc ++ [(kv.1, Val.dict
      [("uniqueness_percentage",
          Val.rat (round2 (if 0 < t then (u : ℚ) / (t : ℚ) * 100 else 0))),
       ("unique_values", Val.int u),
       ("total_records", Val.int t),
       ("duplicate_records", Val.int (t - u))])]
  | Option.none => acc

/-- `_calculate_uniqueness_summary`. -/
def calcUniquenessSummary (qm : Obj) : Obj :=
  if qm.isEmpty then [("overall_uniqueness", Val.str "No data available")]
  else qm.foldl uniquenessStep []

/-! ## `Neo4jWorkflow.run` (workflow.py lines 31-172)

The five fan-out activities are gathered with `return_exceptions=True`, so
the workflow always receives all five outcomes.  A slot is an
`Except String A`: `Except.error` is an activity that failed after its
retry policy was exhausted. -/

/-- The positional outcome set of the five fan-out activities, in the
order they are passed to `asyncio.gather`. -/
structure Outcomes : Type where
  labels : Except String (List String)
  relationshipTypes : Except String (List String)
  schemaInfo : Except String Obj
  qualityContext : Except String Obj
  advancedInfo : Except String Obj

/-- The default substituted for a failed activity (lines 100-112): the
caller picks `[]` or `{}` as appropriate. -/
def orDefault {α : Type} : Except String α → α → α
  | Except.ok a, _ => a
  | Except.error _, d => d

/-- Decode a JSON value as a list of strings; any other shape makes the
Python iteration in `_extract_relationship_patterns` raise. -/
def asStrList : Val → Option (List String)
  | Val.list xs => asStrListAux xs
  | _ => Option.none
where
  asStrListAux : List Val → Option (List String)
  | [] => some []
  | Val.str s :: rest =>
      match asStrListAux rest with
      | some l => some (s :: l)
      | Option.none => Option.none
  | _ :: _ => Option.none

/-- Python dict-literal update semantics: a key already present keeps its
position and gets the new value, a new key is appended.  Models
`{**quality_metrics, "data_completeness": ..., "data_uniqueness": ...}`. -/
def pyInsert (o : Obj) (k : String) (v : Val) : Obj :=
  if (objGet o k).isSome then o.map (fun kv => if kv.1 = k then (kv.1, v) else kv)
  else o ++ [(k, v)]

/-- The three dynamic-type checks the aggregation dictionary literal
performs while it is evaluated, in source order: `business_context` must
answer `.get` (line 126), the lineage value must be an iterable of strings
(line 134), and `quality_metrics` must be a mapping for the `**` spread
(line 139).  Python raises `AttributeError`/`TypeError` otherwise. -/
def buildChecks (schemaInfo qualityContext : Obj) : Option (Obj × List String × Obj) :=
  match objGetD qualityContext "business_context" (Val.dict []) with
  | Val.dict bc =>
    match asStrList (objGetD schemaInfo "lineage" (Val.list [])) with
    | some lineage =>
      match objGetD qualityContext "quality_metrics" (Val.dict []) with
      | Val.dict qm => some (bc, lineage, qm)
      | _ => Option.none
    | Option.none => Option.none
  | _ => Option.none

/-- The aggregated metadata dictionary of lines 115-143. -/
def reportLiteral (labels relTypes : List String) (schemaInfo advancedInfo : Obj)
    (bc : Obj) (lineage : List String) (qm : Obj) : Obj :=
  [("Schema Information", Val.dict
      [("node_labels", strListVal labels),
       ("relationship_types", strListVal relTypes),
       ("node_property_details", objGetD schemaInfo "node_property_types" (Val.dict [])),
       ("constraints", objGetD schemaInfo "constraints" (Val.list [])),
       ("indexes", objGetD advancedInfo "indexes" (Val.list []))]),
   ("Business Context", Val.dict
      [("product_catalog", objGetD bc "product_catalog" (Val.dict [])),
       ("customer_segments", objGetD bc "customer_segments" (Val.list [])),
       ("order_statistics", objGetD bc "order_statistics" (Val.list [])),
       ("graph_statistics", objGetD advancedInfo "statistics" (Val.dict []))]),
   ("Lineage Information", Val.dict
      [("graph_dependencies", objGetD schemaInfo "lineage" (Val.list [])),
       ("relationship_patterns", Val.dict (extractRelationshipPatterns lineage)),
       ("data_flow", Val.dict (analyzeDataFlow labels relTypes))]),
   ("Quality Metrics", Val.dict
      (pyInsert (pyInsert qm "data_completeness" (Val.dict (calcCompletenessSummary qm)))
        "data_uniqueness" (Val.dict (calcUniquenessSummary qm))))]

/-- Aggregation of the resolved activity values.  `Except.error` models an
exception raised while the dictionary literal is evaluated, which the
surrounding `try` of `run` catches. -/
def buildReport (labels relTypes : List String)
    (schemaInfo qualityContext advancedInfo : Obj) : Except String Obj :=
  match buildChecks schemaInfo qualityContext with
  | some (bc, lineage, qm) =>
      Except.ok (reportLiteral labels relTypes schemaInfo advancedInfo bc lineage qm)
  | Option.none => Except.error "TypeError: aggregation input had an unexpected shape"

/-- The error-shaped report of lines 156-161. -/
def errorReport (e : String) : Obj :=
  [("Schema Information", Val.dict [("error", Val.str ("Failed to extract schema: " ++ e))]),
   ("Business Context", Val.dict [("error", Val.str ("Failed to extract context: " ++ e))]),
   ("Lineage Information", Val.dict [("error", Val.str ("Failed to extract lineage: " ++ e))]),
   ("Quality Metrics", Val.dict [("error", Val.str ("Failed to extract metrics: " ++ e))])]

/-- Observable outcome of one `Neo4jWorkflow.run` call: the returned
report, whether the fan-out `asyncio.gather` was reached, and the
argument of the `store_metadata_result` activity call. -/
structure RunResult : Type where
  report : Obj
  fanoutRan : Bool
  storedWith : Option Obj

/-- `Neo4jWorkflow.run`, starting after `get_workflow_args`.  `preflight`
is the outcome of the gating `preflight_check` activity after its retry
policy (an error also covers a credential-resolution failure raised inside
that activity).  A preflight error skips the fan-out entirely; a fan-out
outcome set is processed by substituting defaults for failed slots and
aggregating; an aggregation exception is caught by the same `except`
branch.  Both branches assign `_metadata_result` and then pass it to
`store_metadata_result`. -/
def runWorkflow (preflight : Except String Bool) (o : Outcomes) : RunResult :=
  match preflight with
  | Except.error e =>
      { report := errorReport e, fanoutRan := false, storedWith := some (errorReport e) }
  | Except.ok _ =>
    match buildReport (orDefault o.labels []) (orDefault o.relationshipTypes [])
        (orDefault o.schemaInfo []) (orDefault o.qualityContext [])
        (orDefault o.advancedInfo []) with
    | Except.ok r => { report := r, fanoutRan := true, storedWith := some r }
    | Except.error e =>
        { report := errorReport e, fanoutRan := true, storedWith := some (errorReport e) }

/-! ## The workflow query (workflow.py lines 398-403) -/

/-- Observable phases of one run: before `_metadata_result` is assigned,
after the assignment (line 115 or 156) but before the store activity
completes, and after the store. -/
inductive RunPhase : Type where
  | running
  | computed (report : Obj)
  | stored (report : Obj)

/-- The `_metadata_result` attribute in each phase. -/
def metadataResult : RunPhase → Option Obj
  | RunPhase.running => Option.none
  | RunPhase.computed r => some r
  | RunPhase.stored r => some r

/-- The pending marker returned while `_metadata_result is None`. -/
def pendingResult : Obj :=
  [("status", Val.str "running"), ("message", Val.str "Workflow is still processing")]

/-- Query handler `get_metadata_result`. -/
def getMetadataResult (p : RunPhase) : Obj :=
  match metadataResult p with
  | Option.none => pendingResult
  | some r => r

/-- Whether the run has persisted its report. -/
def putDone : RunPhase → Bool
  | RunPhase.stored _ => true
  | _ => false

/-- The phases a `run` call passes through, in execution order: the report
is assigned to `_metadata_result` (line 115 or 156) strictly before
`_store_result_for_frontend` runs (line 149 or 165). -/
def runPhases (preflight : Except String Bool) (o : Outcomes) : List RunPhase :=
  [RunPhase.running,
   RunPhase.computed ((runWorkflow preflight o).report),
   RunPhase.stored ((runWorkflow preflight o).report)]

/-! ## Credential resolution (`activities.py` lines 18-43) -/

/-- The three optional credential inputs, from the per-run
`neo4j_credentials` mapping or from the process environment. -/
structure CredInput : Type where
  uri : Option String
  username : Option String
  password : Option String

/-- Python truthiness of an optional string: `None` and `""` are falsy. -/
def truthy : Option String → Bool
  | Option.none => false
  | some s => !(s == "")

/-- Python `a or b`. -/
def pyOr (a b : Option String) : Option String := if truthy a then a else b

/-- A fully resolved credential triple. -/
structure Credentials : Type where
  uri : String
  username : String
  password : String
deriving DecidableEq

/-- Credential resolution inside `_setup_state_if_needed`: per-field
fallback with `or`, then the `all([uri, username, password])` gate. -/
def resolveCredentials (explicit env : CredInput) : Except String Credentials :=
  let u := pyOr explicit.uri env.uri
  let n := pyOr explicit.username env.username
  let p := pyOr explicit.password env.password
  if truthy u && truthy n && truthy p then
    Except.ok { uri := u.getD "", username := n.getD "", password := p.getD "" }
  else
    Except.error "Missing required Neo4j credentials. Please provide them via the frontend form or environment variables."

/-- A fan-out activity body: `_setup_state_if_needed` resolves credentials
and creates the client before any fetch runs; a credential failure
re-raises and no fetch executes. -/
def activityRun {α : Type} (explicit env : CredInput) (fetch : Credentials → α) :
    Except String α :=
  match resolveCredentials explicit env with
  | Except.ok c => Except.ok (fetch c)
  | Except.error e => Except.error e

/-! ## Result store (`activities.py` lines 114-147, `main.py` lines 152-206) -/

/-- The `workflow_results` directory: one JSON file per workflow id plus
the `latest.json` alias. -/
structure Store : Type where
  files : String → Option Obj
  latest : Option Obj

/-- A store in which nothing has ever been written. -/
def emptyStore : Store := { files := fun _ => Option.none, latest := Option.none }

/-- `store_metadata_result`: overwrite the per-id record and point the
latest alias at this report. -/
def putStore (st : Store) (runId : String) (report : Obj) : Store :=
  { files := fun k => if k = runId then some report else st.files k,
    latest := some report }

/-- Read the per-id record. -/
def getStore (st : Store) (runId : String) : Option Obj := st.files runId

/-- Read the latest alias. -/
def getLatest (st : Store) : Option Obj := st.latest

/-- A sequence of store writes, oldest first. -/
def applyPuts (st : Store) (ps : List (String × Obj)) : Store :=
  ps.foldl (fun s kv => putStore s kv.1 kv.2) st

/-- Responses of the HTTP retrieval endpoints. -/
inductive HttpResult : Type where
  | ok (report : Obj)
  | notFound (detail : String)

/-- HTTP handler `get_workflow_result_handler` (main.py lines 152-186):
memory cache first, then the per-id record, then the latest alias, else
`HTTPException(404, "Workflow not ready")`. -/
def getWorkflowResultHandler (mem : String → Option Obj) (st : Store) (runId : String) :
    HttpResult :=
  match mem runId with
  | some r => HttpResult.ok r
  | Option.none =>
    match st.files runId with
    | some r => HttpResult.ok r
    | Option.none =>
      match st.latest with
      | some r => HttpResult.ok r
      | Option.none => HttpResult.notFound "Workflow not ready"

/-! ## Well-formedness of activity payloads

`fetch_schema_info` (handler.py `get_schema_info`) always produces a
`lineage` entry that is a list of strings, and `fetch_quality_and_context`
(handler.py `get_quality_and_context`) always produces dictionaries under
`business_context` and `quality_metrics` whose metric entries carry
integer counts.  These are the payload invariants under which the Python
aggregation runs without raising; the defaults substituted for failed
activities satisfy them trivially. -/

/-- Two-level dictionary lookup, used to read a field of a section. -/
def objGet2 (o : Obj) (k1 k2 : String) : Option Val :=
  match objGet o k1 with
  | some (Val.dict m) => objGet m k2
  | _ => Option.none

/-- The four section names, in report order. -/
def sectionNames : List String :=
  ["Schema Information", "Business Context", "Lineage Information", "Quality Metrics"]

/-- Every one of the four sections is present in the report. -/
def hasAllSections (r : Obj) : Prop :=
  ∀ sec ∈ sectionNames, (objGet r sec).isSome = true

/-! ## Specification-side formulations

The following definitions restate parts of the spec in its own words; the
refinement theorems below compare them with the embedded source. -/

/-- First-occurrence deduplication (keys of a Python dict in insertion
order). -/
def specKeys (ks : List String) : List String :=
  ks.foldl (fun acc k => if k ∈ acc then acc else acc ++ [k]) []

/-- Grouping of an already-filtered pattern list by relationship-type key:
keys in first-seen order, each mapped to its patterns in list order. -/
def specGroupsOf (wfl : List String) : List (String × List String) :=
  (specKeys (wfl.map relTypeOf)).map
    (fun k => (k, wfl.filter (fun p => relTypeOf p == k)))

/-- Spec-side grouping: keep the strings passing the source guard, group
them by key. -/
def specGroups (lineage : List String) : List (String × List String) :=
  specGroupsOf (lineage.filter patternGuard)

/-- All ordered pairs over a catalog, in nested-loop order. -/
def orderedPairs {α : Type} (xs : List α) : List (α × α) :=
  xs.flatMap (fun a => xs.map (fun b => (a, b)))

/-- Spec-side potential-flow enumeration: every ordered pair of distinct
labels in catalog order, every relationship type in catalog order,
truncated to the first 10 entries. -/
def specFlows (labels rels : List String) : List String :=
  (((orderedPairs labels).filter (fun pr => pr.1 ≠ pr.2)).flatMap
    (fun pr => rels.map (fun r => flowStr pr.1 r pr.2))).take 10

/-- Spec-side selection of the fields carrying both completeness inputs. -/
def includedFields (qm : Obj) : List (String × Int × Int) :=
  qm.filterMap (fun kv => (metricOf kv.2).map (fun tn => (kv.1, tn.1, tn.2)))

/-- Sum of `total_records` over the included fields. -/
def sumTotals (qm : Obj) : Int := ((includedFields qm).map (fun f => f.2.1)).sum

/-- Sum of `null_count` over the included fields. -/
def sumNulls (qm : Obj) : Int := ((includedFields qm).map (fun f => f.2.2)).sum

/-- The `field_level_completeness` entry of one included field. -/
def fieldEntryOf (f : String × Int × Int) : String × Val :=
  (f.1, Val.dict
    [("completeness_percentage", Val.rat (round2 (fieldPct f.2.1 f.2.2))),
     ("null_count", Val.int f.2.2),
     ("total_count", Val.int f.2.1)])

/-! ## Helper lemmas -/

lemma errorReport_sections (e : String) : hasAllSections (errorReport e) := by
  intro sec hsec
  simp only [sectionNames, List.mem_cons, List.not_mem_nil, or_false] at hsec
  rcases hsec with rfl | rfl | rfl | rfl <;> rfl

lemma reportLiteral_sections (labels relTypes : List String) (schemaInfo advancedInfo : Obj)
    (bc : Obj) (lineage : List String) (qm : Obj) :
    hasAllSections (reportLiteral labels relTypes schemaInfo advancedInfo bc lineage qm) := by
  intro sec hsec
  simp only [sectionNames, List.mem_cons, List.not_mem_nil, or_false] at hsec
  rcases hsec with rfl | rfl | rfl | rfl <;> rfl

/-- C3: for every preflight outcome and every operation-outcome set, the
run is total and the report it returns contains all four top-level
sections — `Schema Information`, `Business Context`, `Lineage
Information`, `Quality Metrics` — whether they hold data, defaults, or an
`error` field. -/
theorem neosense_c3_aggregation_total (preflight : Except String Bool) (o : Outcomes) :
    hasAllSections ((runWorkflow preflight o).report) := by
  cases preflight with
  | error e => exact errorReport_sections e
  | ok b =>
    cases hc : buildChecks (orDefault o.schemaInfo []) (orDefault o.qualityContext []) with
    | none =>
        simp only [runWorkflow, buildReport, hc]
        exact errorReport_sections _
    | some t =>
        obtain ⟨bc, lineage, qm⟩ := t
        simp only [runWorkflow, buildReport, hc]
        exact reportLiteral_sections _ _ _ _ _ _ _

/-- Witness for C3 at a concrete preflight failure and all-failed fan-out. -/
theorem neosense_c3_witness :
    (objGet ((runWorkflow (Except.error "boom")
        ⟨Except.error "a", Except.error "b", Except.error "c", Except.error "d",
         Except.error "e"⟩).report) "Schema Information").isSome = true :=
  neosense_c3_aggregation_total (Except.error "boom")
    ⟨Except.error "a", Except.error "b", Except.error "c", Except.error "d", Except.error "e"⟩
    "Schema Information" (by simp [sectionNames])

/-! ## C2 — a failed gating check stops the run with an error report -/

/-- C2: when the gating preflight check (which also performs credential
resolution) fails after its retries, the run performs no fan-out
operation and still returns a report in which each of the four sections
carries an `error` field describing the failure. -/
theorem neosense_c2_preflight_failure (e : String) (o : Outcomes) :
    runWorkflow (Except.error e) o =
      { report := errorReport e, fanoutRan := false, storedWith := some (errorReport e) } ∧
    ∀ sec ∈ sectionNames, ∃ msg, objGet2 (errorReport e) sec "error" = some (Val.str msg) := by
  refine ⟨rfl, ?_⟩
  intro sec hsec
  simp only [sectionNames, List.mem_cons, List.not_mem_nil, or_false] at hsec
  rcases hsec with rfl | rfl | rfl | rfl <;> exact ⟨_, rfl⟩

/-- Witness for C2 at a concrete preflight failure. -/
theorem neosense_c2_witness :
    (runWorkflow (Except.error "ServiceUnavailable")
        ⟨Except.error "a", Except.error "b", Except.error "c", Except.error "d",
         Except.error "e"⟩).fanoutRan = false ∧
    ∃ msg, objGet2 (errorReport "ServiceUnavailable") "Schema Information" "error"
        = some (Val.str msg) := by
  have h := neosense_c2_preflight_failure "ServiceUnavailable"
    ⟨Except.error "a", Except.error "b", Except.error "c", Except.error "d", Except.error "e"⟩
  exact ⟨by rw [h.1], h.2 "Schema Information" (by simp [sectionNames])⟩

/-! ## C9 — store writes are idempotent and last-write-wins -/

/-- C9: `put` is idempotent (storing the same pair twice leaves the store
as after one write), `get` of the written id returns the report, and
every `put` also repoints the latest alias at its report, whatever the
run id. -/
theorem neosense_c9_store_idempotent (st : Store) (runId : String) (report : Obj) :
    putStore (putStore st runId report) runId report = putStore st runId report ∧
    getStore (putStore st runId report) runId = some report ∧
    getLatest (putStore st runId report) = some report := by
  refine ⟨?_, ?_, rfl⟩
  · unfold putStore
    congr 1
    funext k
    by_cases h : k = runId
    · simp [h]
    · simp [h]
  · simp [getStore, putStore]

/-! ## C10 — lookup falls through to the latest alias -/

lemma applyPuts_latest (ps : List (String × Obj)) :
    ∀ (st : Store) (pr : String × Obj), ps.getLast? = some pr →
      (applyPuts st ps).latest = some pr.2 := by
  induction ps with
  | nil => intro st pr h; simp at h
  | cons p rest ih =>
    intro st pr h
    cases rest with
    | nil =>
        simp only [List.getLast?_singleton, Option.some.injEq] at h
        subst h
        rfl
    | cons q rest2 =>
        rw [List.getLast?_cons_cons] at h
        exact ih (putStore st p.1 p.2) pr h

/-- C10: once at least one report has been stored, fetching a run id that
was never stored does not produce not-found — the lookup falls through
the per-id record to the latest alias and returns the most recently
stored report; a not-found error occurs only when nothing was ever
stored and the in-memory cache is empty. -/
theorem neosense_c10_latest_fallthrough (mem : String → Option Obj)
    (ps : List (String × Obj)) (runId : String) (pr : String × Obj)
    (hmem : ∀ k, mem k = Option.none) (hlast : ps.getLast? = some pr)
    (hmiss : (applyPuts emptyStore ps).files runId = Option.none) :
    getWorkflowResultHandler mem (applyPuts emptyStore ps) runId = HttpResult.ok pr.2 ∧
    ∀ anyId, getWorkflowResultHandler mem emptyStore anyId
        = HttpResult.notFound "Workflow not ready" := by
  constructor
  · have hl := applyPuts_latest ps emptyStore pr hlast
    simp [getWorkflowResultHandler, hmem runId, hmiss, hl]
  · intro anyId
    simp [getWorkflowResultHandler, hmem anyId, emptyStore]

/-- Witness for C10: one stored run, a different id queried. -/
theorem neosense_c10_witness :
    getWorkflowResultHandler (fun _ => Option.none)
        (applyPuts emptyStore [("run-a", [("k", Val.int 1)])]) "run-b"
      = HttpResult.ok [("k", Val.int 1)] :=
  (neosense_c10_latest_fallthrough (fun _ => Option.none) [("run-a", [("k", Val.int 1)])]
    "run-b" ("run-a", [("k", Val.int 1)]) (fun _ => rfl) rfl rfl).1

/-! ## C8 — querying before persistence -/

/-- C8 counterexample: before any report has been persisted (before the
first `put`), the HTTP retrieval endpoint answers a run-id query with a
404 not-found error (`"Workflow not ready"`), not a pending result. -/
theorem neosense_c8_counterexample :
    getWorkflowResultHandler (fun _ => Option.none) emptyStore "wf-1"
      = HttpResult.notFound "Workflow not ready" := rfl

/-- C8 amended: the workflow query returns the distinguishable pending
marker only while the report has not yet been produced, and returns the
report itself once it is assigned — even before the store write; the HTTP
endpoint instead returns a 404 not-found error exactly when neither the
in-memory cache, nor the per-id record, nor the latest alias holds a
report. -/
theorem neosense_c8_amended :
    (getMetadataResult RunPhase.running = pendingResult ∧
     objGet pendingResult "status" = some (Val.str "running") ∧
     putDone RunPhase.running = false) ∧
    (∀ r, getMetadataResult (RunPhase.computed r) = r ∧
       putDone (RunPhase.computed r) = false) ∧
    (∀ (mem : String → Option Obj) (st : Store) (runId : String),
       getWorkflowResultHandler mem st runId = HttpResult.notFound "Workflow not ready" ↔
         mem runId = Option.none ∧ st.files runId = Option.none ∧
           st.latest = Option.none) := by
  refine ⟨⟨rfl, rfl, rfl⟩, fun r => ⟨rfl, rfl⟩, fun mem st runId => ?_⟩
  constructor
  · intro h
    cases hm : mem runId with
    | some r => simp [getWorkflowResultHandler, hm] at h
    | none =>
      cases hf : st.files runId with
      | some r => simp [getWorkflowResultHandler, hm, hf] at h
      | none =>
        cases hl : st.latest with
        | some r => simp [getWorkflowResultHandler, hm, hf, hl] at h
        | none => exact ⟨rfl, rfl, rfl⟩
  · rintro ⟨hm, hf, hl⟩
    simp [getWorkflowResultHandler, hm, hf, hl]

/-- Witness for C8 amended at a concrete empty store. -/
theorem neosense_c8_amended_witness :
    getWorkflowResultHandler (fun _ => Option.none) emptyStore "wf-9"
      = HttpResult.notFound "Workflow not ready" :=
  (neosense_c8_amended.2.2 (fun _ => Option.none) emptyStore "wf-9").2 ⟨rfl, rfl, rfl⟩

/-! ## C7 — credential resolution -/

/-- C7: each credential field takes the explicit per-run value when
non-empty, else the environment default; resolution succeeds exactly when
all three fields are non-empty after the fallback, in which case the
resolved triple is exactly the three chosen values; on failure the error
propagates out of the activity and no fetch executes. -/
theorem neosense_c7_credentials (explicit env : CredInput) :
    ((∃ c, resolveCredentials explicit env = Except.ok c) ↔
       (truthy (pyOr explicit.uri env.uri) && truthy (pyOr explicit.username env.username) &&
        truthy (pyOr explicit.password env.password)) = true) ∧
    (∀ c, resolveCredentials explicit env = Except.ok c →
       c.uri = (pyOr explicit.uri env.uri).getD "" ∧
       c.username = (pyOr explicit.username env.username).getD "" ∧
       c.password = (pyOr explicit.password env.password).getD "" ∧
       (∀ u, explicit.uri = some u → u ≠ "" → c.uri = u) ∧
       ((explicit.uri = Option.none ∨ explicit.uri = some "") →
          c.uri = env.uri.getD "")) ∧
    (∀ e (fetch : Credentials → Obj), resolveCredentials explicit env = Except.error e →
       activityRun explicit env fetch = Except.error e) := by
  have hres : resolveCredentials explicit env =
      (if (truthy (pyOr explicit.uri env.uri) && truthy (pyOr explicit.username env.username) &&
            truthy (pyOr explicit.password env.password)) = true
       then Except.ok
          { uri := (pyOr explicit.uri env.uri).getD "",
            username := (pyOr explicit.username env.username).getD "",
            password := (pyOr explicit.password env.password).getD "" }
       else Except.error "Missing required Neo4j credentials. Please provide them via the frontend form or environment variables.") := rfl
  refine ⟨?_, ?_, ?_⟩
  · constructor
    · rintro ⟨c, hc⟩
      by_cases h : (truthy (pyOr explicit.uri env.uri) &&
          truthy (pyOr explicit.username env.username) &&
          truthy (pyOr explicit.password env.password)) = true
      · exact h
      · rw [hres, if_neg h] at hc
        exact absurd hc (by simp)
    · intro h
      exact ⟨_, by rw [hres, if_pos h]⟩
  · intro c hc
    by_cases h : (truthy (pyOr explicit.uri env.uri) &&
        truthy (pyOr explicit.username env.username) &&
        truthy (pyOr explicit.password env.password)) = true
    · rw [hres, if_pos h] at hc
      obtain rfl : _ = c := congrArg (fun x => match x with
        | Except.ok c2 => c2
        | Except.error _ => { uri := "", username := "", password := "" }) hc
      refine ⟨rfl, rfl, rfl, ?_, ?_⟩
      · intro u hu hne
        simp only [pyOr, hu, truthy]
        have : (u == "") = false := by
          cases hbe : u == "" with
          | true => exact absurd (by simpa using hbe) hne
          | false => rfl
        rw [this]
        rfl
      · intro hcase
        rcases hcase with hu | hu <;> simp [pyOr, hu, truthy]
    · rw [hres, if_neg h] at hc
      exact absurd hc (by simp)
  · intro e fetch he
    simp [activityRun, he]

/-- Concrete credential inputs exercising override-over-default
precedence and empty-field fallback. -/
def exExplicit : CredInput :=
  { uri := some "bolt://db:7687", username := Option.none, password := some "" }

/-- Environment defaults for the witness. -/
def exEnv : CredInput :=
  { uri := some "bolt://ignored", username := some "neo4j", password := some "secret" }

/-- Credential inputs in which every field is missing. -/
def exNoCreds : CredInput :=
  { uri := Option.none, username := Option.none, password := Option.none }

/-- Witness for C7: a complete triple resolves, a fully missing one makes
the activity fail before any fetch. -/
theorem neosense_c7_witness :
    (∃ c, resolveCredentials exExplicit exEnv = Except.ok c) ∧
    activityRun exNoCreds exNoCreds (fun _ => ([] : Obj))
      = Except.error "Missing required Neo4j credentials. Please provide them via the frontend form or environment variables." := by
  constructor
  · exact (neosense_c7_credentials exExplicit exEnv).1.mpr (by decide)
  · exact (neosense_c7_credentials exNoCreds exNoCreds).2.2 _ _ rfl

/-! ## C5 — completeness summary is records-weighted -/

lemma completeness_fold (qm : Obj) : ∀ (a b : Int) (acc : Obj),
    qm.foldl completenessStep (a, b, acc)
      = (a + sumTotals qm, b + sumNulls qm, acc ++ (includedFields qm).map fieldEntryOf) := by
  induction qm with
  | nil =>
      intro a b acc
      simp [sumTotals, sumNulls, includedFields]
  | cons kv rest ih =>
    intro a b acc
    cases hm : metricOf kv.2 with
    | none =>
      have hstep : completenessStep (a, b, acc) kv = (a, b, acc) := by
        simp [completenessStep, hm]
      rw [List.foldl_cons, hstep, ih]
      simp [includedFields, sumTotals, sumNulls, List.filterMap_cons, hm]
    | some tn =>
      obtain ⟨t, n⟩ := tn
      have hstep : completenessStep (a, b, acc) kv
          = (a + t, b + n, acc ++ [fieldEntryOf (kv.1, t, n)]) := by
        simp [completenessStep, hm, fieldEntryOf]
      rw [List.foldl_cons, hstep, ih]
      simp [includedFields, sumTotals, sumNulls, List.filterMap_cons, hm, fieldEntryOf,
        add_assoc]

/-- C5 counterexample: on the empty quality-metrics mapping — reachable
whenever `fetch_quality_and_context` fails and the `{}` default is
substituted — the summary is the sentinel
`{"overall_completeness": "No data available"}` and carries no
`overall_completeness_percentage` at all, instead of the ratio over the
(empty) sums the claim prescribes for every mapping. -/
theorem neosense_c5_counterexample :
    calcCompletenessSummary [] = [("overall_completeness", Val.str "No data available")] ∧
    objGet (calcCompletenessSummary []) "overall_completeness_percentage" = Option.none :=
  ⟨rfl, rfl⟩

/-- C5 amended: every field carrying both `total_records` and
`null_count` contributes a per-field percentage
`(total - nulls) / total * 100` (0 when the total is 0), fields missing
either input are skipped, and on a non-empty mapping the overall
percentage is the same formula applied to the sums over the included
fields — a records-weighted aggregate, not an average of per-field
percentages; the empty mapping instead yields a sentinel
`overall_completeness` text and no percentage. -/
theorem neosense_c5_amended (qm : Obj) :
    calcCompletenessSummary qm =
      if qm.isEmpty then
        [("overall_completeness", Val.str "No data available")]
      else
        [("overall_completeness_percentage",
            Val.rat (round2 (fieldPct (sumTotals qm) (sumNulls qm)))),
         ("field_level_completeness", Val.dict ((includedFields qm).map fieldEntryOf)),
         ("total_fields_analyzed", Val.int (includedFields qm).length)] := by
  by_cases h : qm.isEmpty
  · rw [if_pos h, calcCompletenessSummary, if_pos h]
  · rw [if_neg h, calcCompletenessSummary, if_neg h, completeness_fold qm 0 0 []]
    simp

/-- The quality-metrics mapping of the claim: `A{total=4,null=1}` and
`B{total=5,null=0}`. -/
def exampleQM : Obj :=
  [("A", Val.dict [("total_records", Val.int 4), ("null_count", Val.int 1)]),
   ("B", Val.dict [("total_records", Val.int 5), ("null_count", Val.int 0)])]

/-! ## C4 — relationship-pattern extraction -/

lemma specKeys_mem (ks : List String) (k : String) : k ∈ specKeys ks ↔ k ∈ ks := by
  have h : ∀ (ks2 : List String) (acc : List String),
      k ∈ ks2.foldl (fun acc2 k2 => if k2 ∈ acc2 then acc2 else acc2 ++ [k2]) acc ↔
        k ∈ acc ∨ k ∈ ks2 := by
    intro ks2
    induction ks2 with
    | nil => intro acc; simp
    | cons x rest ih =>
      intro acc
      rw [List.foldl_cons]
      by_cases hx : x ∈ acc
      · rw [if_pos hx, ih, List.mem_cons]
        constructor
        · intro h2
          exact h2.elim Or.inl (fun h3 => Or.inr (Or.inr h3))
        · intro h2
          exact h2.elim Or.inl
            (fun h3 => h3.elim (fun he => Or.inl (by rw [he]; exact hx)) Or.inr)
      · rw [if_neg hx, ih, List.mem_append, List.mem_singleton, List.mem_cons]
        tauto
  rw [specKeys, h ks []]
  simp

lemma specKeys_append_single (ks : List String) (k : String) :
    specKeys (ks ++ [k]) = if k ∈ specKeys ks then specKeys ks else specKeys ks ++ [k] := by
  unfold specKeys
  rw [List.foldl_append]
  rfl

lemma any_map_helper {α β : Type} (l : List α) (f : α → β) (p : β → Bool) :
    (l.map f).any p = l.any (fun a => p (f a)) := by
  induction l with
  | nil => rfl
  | cons x rest ih => simp [List.any_cons, ih]

lemma hasKey_specGroupsOf (wfl : List String) (k0 : String) :
    hasKey (specGroupsOf wfl) k0 = true ↔ k0 ∈ specKeys (wfl.map relTypeOf) := by
  unfold hasKey specGroupsOf
  rw [any_map_helper]
  simp only [List.any_eq_true, beq_iff_eq]
  constructor
  · rintro ⟨k, hk, rfl⟩
    exact hk
  · intro hk
    exact ⟨k0, hk, rfl⟩

lemma filter_single_str {α : Type} (p : α) (f : α → Bool) :
    List.filter f [p] = if f p then [p] else [] := by
  by_cases h : f p
  · simp [List.filter_cons, h]
  · simp [List.filter_cons, h]

lemma filter_eq_nil_of_none (l : List String) (f : String → Bool)
    (h : ∀ x ∈ l, f x = false) : l.filter f = [] := by
  induction l with
  | nil => rfl
  | cons x rest ih =>
    rw [List.filter_cons, if_neg (by simp [h x (List.mem_cons_self x rest)])]
    exact ih (fun y hy => h y (List.mem_cons_of_mem x hy))

lemma groupAdd_spec (pre2 : List String) (p : String) :
    groupAdd (specGroupsOf pre2) (relTypeOf p) p = specGroupsOf (pre2 ++ [p]) := by
  by_cases hmem : relTypeOf p ∈ specKeys (pre2.map relTypeOf)
  · -- key already present: its entry gets the pattern appended, every
    -- other entry is unchanged, and the key list does not grow
    rw [groupAdd, if_pos ((hasKey_specGroupsOf pre2 (relTypeOf p)).mpr hmem)]
    unfold specGroupsOf
    rw [List.map_map, List.map_append, List.map_cons, List.map_nil,
      specKeys_append_single, if_pos hmem]
    apply List.map_congr_left
    intro k hk
    simp only [Function.comp]
    by_cases hkp : k = relTypeOf p
    · subst hkp
      simp [List.filter_append, filter_single_str]
    · have hpk : ¬relTypeOf p = k := fun h => hkp h.symm
      simp [List.filter_append, filter_single_str, hkp, hpk]
  · -- a new key: appended at the end of the grouping with the pattern as
    -- its only member
    have hfalse : hasKey (specGroupsOf pre2) (relTypeOf p) = false := by
      rw [Bool.eq_false_iff]
      intro htrue
      exact hmem ((hasKey_specGroupsOf pre2 (relTypeOf p)).mp htrue)
    rw [groupAdd, if_neg (by simp [hfalse])]
    unfold specGroupsOf
    rw [List.map_append, List.map_cons, List.map_nil, specKeys_append_single,
      if_neg hmem, List.map_append]
    congr 1
    · apply List.map_congr_left
      intro k hk
      have hkp : relTypeOf p ≠ k := fun h => hmem (h ▸ hk)
      rw [List.filter_append, filter_single_str, if_neg (by simp [hkp]), List.append_nil]
    · have hnil : pre2.filter (fun q => relTypeOf q == relTypeOf p) = [] := by
        apply filter_eq_nil_of_none
        intro q hq
        have hne : relTypeOf q ≠ relTypeOf p := by
          intro he
          exact hmem ((specKeys_mem (pre2.map relTypeOf) (relTypeOf p)).mpr
            (he ▸ List.mem_map_of_mem relTypeOf hq))
        simp [hne]
      simp [List.filter_append, filter_single_str, hnil]

lemma patternsFold (l : List String) : ∀ (pre2 : List String),
    l.foldl (fun acc p => if patternGuard p then groupAdd acc (relTypeOf p) p else acc)
        (specGroupsOf (pre2.filter patternGuard))
      = specGroupsOf ((pre2 ++ l).filter patternGuard) := by
  induction l with
  | nil => intro pre2; rw [List.append_nil]; rfl
  | cons p rest ih =>
    intro pre2
    rw [List.foldl_cons]
    by_cases hg : patternGuard p = true
    · rw [if_pos hg, groupAdd_spec]
      have hfilter : pre2.filter patternGuard ++ [p] = (pre2 ++ [p]).filter patternGuard := by
        rw [List.filter_append, filter_single_str, if_pos hg]
      rw [hfilter, ih (pre2 ++ [p]), List.append_assoc]
      rfl
    · have hfilter : pre2.filter patternGuard = (pre2 ++ [p]).filter patternGuard := by
        rw [List.filter_append, filter_single_str, if_neg hg, List.append_nil]
      rw [if_neg hg, hfilter, ih (pre2 ++ [p]), List.append_assoc]
      rfl

lemma patternsByType_eq_specGroups (l : List String) : patternsByType l = specGroups l := by
  rw [patternsByType, specGroups]
  exact patternsFold l []

/-- C4 counterexample: `"(:A)-[:R]->B"` lacks the delimiter `]->(`, yet
the extraction does not skip it — the string is grouped (under the junk
key `R]->B`) and counted in `total_patterns`. -/
theorem neosense_c4_counterexample :
    pyIn "]->(" "(:A)-[:R]->B" = false ∧
    objGet (extractRelationshipPatterns ["(:A)-[:R]->B"]) "patterns_by_relationship_type"
      = some (Val.dict [("R]->B", Val.list [Val.str "(:A)-[:R]->B"])]) ∧
    objGet (extractRelationshipPatterns ["(:A)-[:R]->B"]) "total_patterns"
      = some (Val.int 1) :=
  ⟨by decide, rfl, rfl⟩

/-- C4 amended: on a non-empty list, every string containing both `-[`
and `]->` is grouped under the text between `-[` and the first following
`]->(` (the whole remainder after `-[` when `]->(` is absent) with all
colons removed, keys in first-seen order; strings missing `-[` or `]->`
are left out of the grouping only; `total_patterns` is the length of the
entire input list, malformed entries included, and
`unique_relationship_types` counts the distinct keys; an empty input
yields a summary-only shape. -/
theorem neosense_c4_amended (lineage : List String) :
    extractRelationshipPatterns lineage =
      if lineage.isEmpty then
        [("patterns", Val.list []), ("summary", Val.str "No relationship patterns found")]
      else
        [("patterns", strListVal lineage),
         ("patterns_by_relationship_type",
            Val.dict ((specGroups lineage).map (fun kv => (kv.1, strListVal kv.2)))),
         ("total_patterns", Val.int lineage.length),
         ("unique_relationship_types", Val.int (specGroups lineage).length)] := by
  rw [extractRelationshipPatterns, patternsByType_eq_specGroups]

/-! ## C6 — potential-data-flow enumeration -/

lemma filterMap_flow_none (rels : List String) :
    rels.filterMap (fun _ => (Option.none : Option String)) = [] := by
  induction rels with
  | nil => rfl
  | cons r rest ih => simp [List.filterMap_cons, ih]

lemma filterMap_flow_some (rels : List String) (f : String → String) :
    rels.filterMap (fun r => some (f r)) = rels.map f := by
  induction rels with
  | nil => rfl
  | cons r rest ih => simp [List.filterMap_cons, ih]

lemma innerFlow (label1 label2 : String) (rels : List String) :
    rels.filterMap (fun rel =>
        if label1 ≠ label2 then some (flowStr label1 rel label2) else Option.none)
      = if label1 ≠ label2 then rels.map (fun rel => flowStr label1 rel label2) else [] := by
  by_cases h : label1 = label2
  · rw [if_neg (by simp [h]), show (fun rel =>
        if label1 ≠ label2 then some (flowStr label1 rel label2) else Option.none)
        = fun _ => (Option.none : Option String) from funext fun rel => by simp [h]]
    exact filterMap_flow_none rels
  · rw [if_pos h, show (fun rel =>
        if label1 ≠ label2 then some (flowStr label1 rel label2) else Option.none)
        = fun rel => some (flowStr label1 rel label2) from funext fun rel => by simp [h]]
    exact filterMap_flow_some rels _

lemma midFlow (label1 : String) (inner rels : List String) :
    inner.flatMap (fun label2 => rels.filterMap (fun rel =>
        if label1 ≠ label2 then some (flowStr label1 rel label2) else Option.none))
      = ((inner.map (fun label2 => (label1, label2))).filter
            (fun pr => pr.1 ≠ pr.2)).flatMap
          (fun pr => rels.map (fun rel => flowStr pr.1 rel pr.2)) := by
  induction inner with
  | nil => rfl
  | cons label2 rest ih =>
    rw [List.flatMap_cons, innerFlow, List.map_cons, List.filter_cons]
    by_cases h : label1 = label2
    · rw [if_neg (by simp [h]), if_neg (by simp [h]), ih]
      rfl
    · rw [if_pos h, if_pos (by simp [h]), List.flatMap_cons, ih]

lemma flowsRawAux (outer inner rels : List String) :
    outer.flatMap (fun label1 => inner.flatMap (fun label2 =>
        rels.filterMap (fun rel =>
          if label1 ≠ label2 then some (flowStr label1 rel label2) else Option.none)))
      = ((outer.flatMap (fun a => inner.map (fun b => (a, b)))).filter
            (fun pr => pr.1 ≠ pr.2)).flatMap
          (fun pr => rels.map (fun rel => flowStr pr.1 rel pr.2)) := by
  induction outer with
  | nil => rfl
  | cons x rest ih =>
    rw [List.flatMap_cons, List.flatMap_cons, List.filter_append, List.flatMap_append,
      midFlow, ih]

lemma potentialFlows_eq_specFlows (labels rels : List String) :
    potentialFlows labels rels = specFlows labels rels := by
  unfold potentialFlows specFlows orderedPairs
  rw [flowsRawAux]

/-- C6: the potential-data-flow list enumerates `"L1 -> R -> L2"` for
every ordered pair of distinct labels and every relationship type, in
nested-loop order (outer over L1, middle over L2, inner over R),
truncated to the first 10 entries; over labels `[A, B]` and relation
`[R]` it yields exactly `["A -> R -> B", "B -> R -> A"]`. -/
theorem neosense_c6_data_flow :
    (∀ labels rels, objGet (analyzeDataFlow labels rels) "potential_flows"
        = some (strListVal (specFlows labels rels))) ∧
    potentialFlows ["A", "B"] ["R"] = ["A -> R -> B", "B -> R -> A"] := by
  constructor
  · intro labels rels
    rw [show analyzeDataFlow labels rels =
        [("entities", strListVal labels), ("connections", strListVal rels),
         ("potential_flows", strListVal (potentialFlows labels rels))] from rfl,
      potentialFlows_eq_specFlows]
    rfl
  · rfl

/-- Witness for C5: the worked example yields `(9-1)/9*100`, rounded to
`88.89`, not the `87.5` average of `75` and `100`. -/
theorem neosense_c5_witness :
    objGet (calcCompletenessSummary exampleQM) "overall_completeness_percentage"
      = some (Val.rat (8889 / 100)) := by
  rw [neosense_c5_amended exampleQM, if_neg (by simp [exampleQM])]
  have hT : sumTotals exampleQM = 9 := by decide
  have hN : sumNulls exampleQM = 1 := by decide
  show some (Val.rat (round2 (fieldPct (sumTotals exampleQM) (sumNulls exampleQM))))
      = some (Val.rat (8889 / 100))
  rw [hT, hN]
  exact congrArg (fun q => some (Val.rat q))
    (by norm_num [fieldPct, round2, roundHalfEven])

/-! ## C1 — fan-out failure isolation -/

